import Mathlib

/-!
Shallow embedding of `src/src/main/OscConnection.ts` (the OSCQuery-based
`OscConnection` class, together with its `OscValue` value cells).

Modelling conventions:
* JavaScript numbers are embedded as exact rationals (`ℚ`).
* A JS `unknown` that may be `undefined` is `Option JSVal`; `none` is
  `undefined`.
* The JS `Map<string, OscValue>` is an association list preserving insertion
  order, with `Map.get`/`Map.set`/`Map.clear` translated literally.
* Event-emitter emissions (`emit('add', ...)`, `emit('clear')`) are logged in
  an `events` list on the connection state.  The per-cell `change` emission
  carries no stored state (its payload is the old/new value, both recoverable
  from the cell) and is not recorded.
* `setTimeout`/`clearTimeout` are modelled by a list of pending timers
  `(id, delayMs)` plus a fresh-id counter; `clearTimeout id` removes the
  timer with that id if it is still pending.
* The per-attempt token minted by `updateBulk` (`{}` compared by reference)
  is a natural number drawn from a fresh counter, so distinct mints are
  never equal.
* Asynchronous suspension points split a TS method into the synchronous
  pieces that run between awaits: `updateBulk` up to its first await is
  `updateBulkStart`; the post-fetch half of `_updateBulk` is
  `applyBulkResult`.
* External collaborators are parameters: the trusted-address set
  (`MyAddressesService`), the config map value `osc.proxy`, the discovery
  peer address (`VrchatOscqueryService.getOscAddress`), and the outcome of
  `portfinder`/`OSCQueryServer.start` inside `openSocketUnsafe`.
-/

/-- A defined JavaScript runtime value as it reaches the OSC layer:
number, boolean, or string.  (`undefined` is `Option.none` around this.) -/
inductive JSVal where
  | num (q : ℚ)
  | boolean (b : Bool)
  | str (s : String)
deriving DecidableEq, Repr

/-- `typeof v == 'number'` for a possibly-undefined value. -/
def isNumV : Option JSVal → Bool
  | some (JSVal.num _) => true
  | _ => false

/-- The `OscValue` cell: `private value: unknown = undefined; private delta = 0`. -/
structure OscValue where
  value : Option JSVal := none
  delta : ℚ := 0
deriving DecidableEq, Repr

namespace OscValue

/-- `clearDelta() { this.delta = 0; }` -/
def clearDelta (c : OscValue) : OscValue :=
  { c with delta := 0 }

/-- `receivedUpdate(newValue)`: add `|newValue - oldValue|` to `delta` when both
old and new values are numbers, then overwrite `value` (and emit `change`,
which stores nothing). -/
def receivedUpdate (c : OscValue) (newValue : Option JSVal) : OscValue :=
  let delta' :=
    match c.value, newValue with
    | some (JSVal.num oldN), some (JSVal.num newN) => c.delta + |newN - oldN|
    | _, _ => c.delta
  { value := newValue, delta := delta' }

/-- `get() { return this.value; }` -/
def get (c : OscValue) : Option JSVal := c.value

/-- `getDelta() { return this.delta; }` -/
def getDelta (c : OscValue) : ℚ := c.delta

/-- A sequence of `receivedUpdate` calls applied to a cell in order. -/
def applyUpdates (c : OscValue) (us : List (Option JSVal)) : OscValue :=
  us.foldl receivedUpdate c

end OscValue

/-- The delta contributed by one update step: `|new - old|` when both sides are
numbers, else `0`. -/
def numPairDelta : Option JSVal → Option JSVal → ℚ
  | some (JSVal.num a), some (JSVal.num b) => |b - a|
  | _, _ => 0

/-- Sum of the absolute numeric differences between consecutive values along
`prev :: us`, counting only steps where both sides are numeric. -/
def sumAbsDiffs : Option JSVal → List (Option JSVal) → ℚ
  | _, [] => 0
  | prev, u :: rest => numPairDelta prev u + sumAbsDiffs u rest

/-- `String.startsWith`, restated on the underlying character list so that it
evaluates by kernel reduction. -/
def strStartsWith (s pre : String) : Bool :=
  pre.data.isPrefixOf s.data

/-- `String.substring(n)` / `String.drop`, on the character list. -/
def strDrop (s : String) (n : ℕ) : String :=
  String.mk (s.data.drop n)

/-- `String.includes(c)` for a single character. -/
def strContainsChar (s : String) (c : Char) : Bool :=
  s.data.contains c

/-- Split a character list at every occurrence of `sep` (JS
`String.split(sep)` for a one-character separator: `""` splits to `[""]`). -/
def splitCharList (sep : Char) : List Char → List (List Char)
  | [] => [[]]
  | c :: rest =>
    let r := splitCharList sep rest
    if c = sep then [] :: r
    else
      match r with
      | [] => [[c]]
      | h :: t => (c :: h) :: t

/-- JS `String.split(sep)` for a one-character separator. -/
def strSplitOnChar (s : String) (sep : Char) : List String :=
  (splitCharList sep s.data).map String.mk

/-- JS `String.trim()`: strip leading and trailing whitespace. -/
def strTrim (s : String) : String :=
  String.mk (((s.data.dropWhile Char.isWhitespace).reverse.dropWhile
    Char.isWhitespace).reverse)

/-- Events emitted on the `OscConnection` emitter (`MyEvents`):
`add(key, value)` and `clear()`.  The `add` payload records the cell as it is
at emission time (the TS emits the cell reference after its first update). -/
inductive OscEvent where
  | add (key : String) (cell : OscValue)
  | clear
deriving DecidableEq, Repr

/-- `Map.get` on the insertion-ordered association list backing `_entries`. -/
def lookupEntry : List (String × OscValue) → String → Option OscValue
  | [], _ => none
  | (k, v) :: rest, key => if k = key then some v else lookupEntry rest key

/-- `Map.set`: overwrite in place when the key exists, append otherwise
(JS `Map` keeps the original insertion position on overwrite). -/
def setEntry : List (String × OscValue) → String → OscValue → List (String × OscValue)
  | [], key, v => [(key, v)]
  | (k, w) :: rest, key, v =>
    if k = key then (key, v) :: rest else (k, w) :: setEntry rest key v

/-- One argument of a parsed OSC message or OSCQuery node; its `value` member
may be `undefined`. -/
structure OscArg where
  value : Option JSVal
deriving DecidableEq, Repr

/-- A parsed OSC message as delivered by the codec: an address string and an
optional argument list (`oscMsg.args` may be `undefined`). -/
structure OscMessage where
  address : String
  args : Option (List OscArg)
deriving DecidableEq, Repr

/-- `oscMsg.args?.[0]?.value`. -/
def firstArgValue (m : OscMessage) : Option JSVal :=
  match m.args with
  | none => none
  | some [] => none
  | some (a :: _) => a.value

/-- One node returned by the discovery bulk fetch (`OSCMethodDescription`):
`full_path` and `arguments` may each be `undefined`. -/
structure BulkNode where
  full_path : Option String
  arguments : Option (List OscArg)
deriving DecidableEq, Repr

/-- `node.arguments?.[0]?.value`. -/
def firstNodeValue (n : BulkNode) : Option JSVal :=
  match n.arguments with
  | none => none
  | some [] => none
  | some (a :: _) => a.value

/-- The mutable state of one `OscConnection` instance.  Timer handles are
naturals; `pendingTimers` lists the retry timers currently scheduled, as
`(id, delayMs)` pairs, and `nextTimerId`/`nextToken` are fresh-name counters
realising `setTimeout` handles and the reference-compared `{}` attempt
tokens. -/
structure ConnState where
  entries : List (String × OscValue) := []
  events : List OscEvent := []
  recentlyRcvdOscCmds : ℕ := 0
  lastReceiveTime : ℕ := 0
  oscQuery : Option ℕ := none
  oscSocket : Bool := false
  socketopen : Bool := false
  retryTimeout : Option ℕ := none
  pendingTimers : List (ℕ × ℕ) := []
  nextTimerId : ℕ := 0
  lastPacket : ℕ := 0
  port : ℕ := 0
  waitingForBulk : Bool := false
  updateBulkAttempt : Option ℕ := none
  nextToken : ℕ := 0
  receivedOne : Bool := false
  log : List String := []
deriving DecidableEq, Repr

/-- The freshly constructed connection, before `openSocket` runs. -/
def initState : ConnState := {}

/-- `clearValues() { this._entries.clear(); this.emit('clear'); }` -/
def clearValues (st : ConnState) : ConnState :=
  { st with entries := [], events := st.events ++ [OscEvent.clear] }

/-- `receivedParamValue(param, rawValue, onlyUseIfNew)`: skip undefined
param/value; create a fresh cell for an absent name (emitting `add` after the
first update lands in it); return untouched when the name exists and
`onlyUseIfNew` is set; otherwise update the existing cell in place. -/
def receivedParamValue (st : ConnState) (param : Option String)
    (rawValue : Option JSVal) (onlyUseIfNew : Bool) : ConnState :=
  match param with
  | none => st
  | some p =>
    match rawValue with
    | none => st
    | some rv =>
      match lookupEntry st.entries p with
      | none =>
        let cell := OscValue.receivedUpdate {} (some rv)
        { st with entries := setEntry st.entries p cell,
                  events := st.events ++ [OscEvent.add p cell] }
      | some cell =>
        if onlyUseIfNew then st
        else { st with entries := setEntry st.entries p (cell.receivedUpdate (some rv)) }

/-- `parseParamFromPath(path)`: strip the avatar-parameter path root, or
`undefined` when the path does not carry it. -/
def parseParamFromPath (path : String) : Option String :=
  if strStartsWith path "/avatar/parameters/" then
    some (strDrop path ("/avatar/parameters/".length))
  else none

/-- The synchronous head of `updateBulk()` up to its first await: set
`waitingForBulk`, mint a fresh attempt token, and record it as the current
attempt.  The minted token is `st.nextToken`. -/
def updateBulkStart (st : ConnState) : ConnState :=
  { st with waitingForBulk := true,
            updateBulkAttempt := some st.nextToken,
            nextToken := st.nextToken + 1 }

/-- The tail of `_updateBulk` once the bulk fetch has resolved with `nodes`:
if the attempt token is no longer current, return without touching anything;
otherwise merge every node with `onlyUseIfNew = true`. -/
def applyBulkResult (st : ConnState) (myAttempt : ℕ) (nodes : List BulkNode) : ConnState :=
  if st.updateBulkAttempt = some myAttempt then
    nodes.foldl (fun s node =>
      receivedParamValue s (parseParamFromPath ((node.full_path).getD ""))
        (firstNodeValue node) true) st
  else st

/-- `clearTimeout` on a possibly-undefined timer handle: drop that timer from
the pending list if it is still there; `clearTimeout(undefined)` is a no-op. -/
def clearTimeoutOpt (timers : List (ℕ × ℕ)) : Option ℕ → List (ℕ × ℕ)
  | none => timers
  | some id => timers.filter (fun t => t.1 ≠ id)

/-- `delayRetry()`: mark the socket closed, invalidate the current bulk
attempt, clear the store (emitting `clear`), drop the socket and OSCQuery
server, cancel any previously scheduled retry timer, and schedule exactly one
new 1000 ms retry. -/
def delayRetry (st : ConnState) : ConnState :=
  let st1 := { st with socketopen := false,
                       updateBulkAttempt := none,
                       waitingForBulk := false }
  let st2 := clearValues st1
  let st3 := { st2 with oscSocket := false, oscQuery := none }
  { st3 with pendingTimers := clearTimeoutOpt st3.pendingTimers st3.retryTimeout
                                ++ [(st3.nextTimerId, 1000)],
             retryTimeout := some st3.nextTimerId,
             nextTimerId := st3.nextTimerId + 1 }

/-- `clearDeltas()`: zero every cell's delta, leaving values in place. -/
def clearDeltas (st : ConnState) : ConnState :=
  { st with entries := st.entries.map (fun e => (e.1, e.2.clearDelta)) }

/-- The `oscSocket.on('message')` handler, parametrised by the trusted-address
set (`MyAddressesService.has`) and the current clock reading (`Date.now()`).
Untrusted senders return immediately; the first accepted message flips
`receivedOne` and launches `updateBulk`; an empty address returns; the
avatar-change address clears the store and relaunches `updateBulk`; otherwise
the first argument is routed to `receivedParamValue` with
`onlyUseIfNew = false`. -/
def handleMessage (myAddresses : List String) (st : ConnState)
    (oscMsg : OscMessage) (sender : String) (now : ℕ) : ConnState :=
  if sender ∈ myAddresses then
    let st1 :=
      if st.receivedOne = false then
        updateBulkStart
          { st with receivedOne := true,
                    log := st.log ++ ["Received an OSC message. We are probably connected."] }
      else st
    let st2 := { st1 with lastPacket := now,
                          recentlyRcvdOscCmds := st1.recentlyRcvdOscCmds + 1,
                          lastReceiveTime := now }
    if oscMsg.address = "" then st2
    else if oscMsg.address = "/avatar/change" then
      updateBulkStart (clearValues { st2 with log := st2.log ++ ["<- Avatar change"] })
    else
      receivedParamValue st2 (parseParamFromPath oscMsg.address) (firstArgValue oscMsg) false
  else st

/-- Environment for one `openSocketUnsafe` run: the outcome of
`portfinder.getPortPromise` and of `oscQuery.start()` (its advertised OSC
port), either of which may reject. -/
structure OpenEnv where
  portResult : Except String ℕ
  startResult : Except String ℕ
deriving Repr

/-- `openSocketUnsafe()`: pick a port, start the OSCQuery server, build the
OSC socket and register its handlers, then open it.  Returns the state as
mutated so far together with `some e` when an awaited step rejected with
`e` (the mutations made before the throw are kept, as in the TS). -/
def openSocketUnsafe (st : ConnState) (env : OpenEnv) : ConnState × Option String :=
  match env.portResult with
  | Except.error e => (st, some e)
  | Except.ok port =>
    let st1 := { st with port := port,
                         log := st.log ++ ["Selected port", "Starting OSCQuery server..."],
                         oscQuery := some port }
    match env.startResult with
    | Except.error e => (st1, some e)
    | Except.ok oscPort =>
      let st2 := { st1 with
                   log := st1.log ++ ["OscQuery started on port " ++ toString oscPort,
                                      "Starting OSC server..."],
                   receivedOne := false,
                   oscSocket := true }
      (st2, none)

/-- `openSocket()`: run `openSocketUnsafe` inside try/catch; the catch block
only calls `this.error(e)`, which logs the error and nothing else. -/
def openSocket (st : ConnState) (env : OpenEnv) : ConnState :=
  match openSocketUnsafe st env with
  | (st1, none) => st1
  | (st1, some e) => { st1 with log := st1.log ++ ["<- ERROR " ++ e] }

/-- The `oscSocket.on('ready')` handler. -/
def onReady (st : ConnState) : ConnState :=
  { st with socketopen := true,
            recentlyRcvdOscCmds := 0,
            lastPacket := 0,
            log := st.log ++ ["<- OPEN", "Waiting for first message from OSC ..."] }

/-- One outbound datagram produced by `send`. -/
structure SentPacket where
  address : String
  argType : String
  argValue : ℚ
  destAddress : String
  destPort : ℕ
deriving DecidableEq, Repr

/-- `send(paramName, value)`, parametrised by the discovery peer address
(`vrchatOscqueryService.getOscAddress()`).  Returns the (unchanged) state and
the list of datagrams sent. -/
def send (st : ConnState) (paramName : String) (value : ℚ)
    (sendAddr : Option (String × ℕ)) : ConnState × List SentPacket :=
  if st.oscSocket = false ∨ st.socketopen = false then (st, [])
  else
    match sendAddr with
    | none => (st, [])
    | some (host, port) =>
      (st, [{ address := "/avatar/parameters/" ++ paramName,
              argType := "f",
              argValue := value,
              destAddress := host,
              destPort := port }])

/-- Value of a hexadecimal digit character, if it is one. -/
def hexDigitVal (c : Char) : Option ℕ :=
  if c.isDigit then some (c.toNat - '0'.toNat)
  else if 'a' ≤ c ∧ c ≤ 'f' then some (c.toNat - 'a'.toNat + 10)
  else if 'A' ≤ c ∧ c ≤ 'F' then some (c.toNat - 'A'.toNat + 10)
  else none

/-- Fold a digit list in base `b`. -/
def digitsToNat (b : ℕ) (ds : List ℕ) : ℕ :=
  ds.foldl (fun acc d => acc * b + d) 0

/-- JS `parseInt(s)` with no radix argument: skip leading whitespace, read an
optional sign, treat a `0x`/`0X` head as hexadecimal, otherwise read decimal
digits; `none` models the `NaN` result when no digit follows. -/
def jsParseInt (s : String) : Option ℤ :=
  let cs := s.data.dropWhile Char.isWhitespace
  let (sign, cs1) : ℤ × List Char :=
    match cs with
    | '-' :: rest => (-1, rest)
    | '+' :: rest => (1, rest)
    | _ => (1, cs)
  match cs1 with
  | '0' :: x :: rest =>
    if x = 'x' ∨ x = 'X' then
      let ds := rest.takeWhile (fun c => (hexDigitVal c).isSome)
      if ds.isEmpty then none
      else some (sign * (digitsToNat 16 (ds.map (fun c => (hexDigitVal c).getD 0)) : ℕ))
    else
      let ds := cs1.takeWhile Char.isDigit
      some (sign * (digitsToNat 10 (ds.map (fun c => c.toNat - '0'.toNat)) : ℕ))
  | _ =>
    let ds := cs1.takeWhile Char.isDigit
    if ds.isEmpty then none
    else some (sign * (digitsToNat 10 (ds.map (fun c => c.toNat - '0'.toNat)) : ℕ))

/-- `OscConnection.parsePort(inputObj, defAddress, defPort)`: an optional
`host:port` override string; a parsable positive port replaces the default
port, a `host:` head replaces the default address. -/
def parsePort (inputObj : Option String) (defAddress : String) (defPort : ℤ) :
    String × ℤ :=
  let input0 := inputObj.getD ""
  let (outAddress, input) :=
    if strContainsChar input0 ':' then
      let split := strSplitOnChar input0 ':' 
      (split.getD 0 "", split.getD 1 "")
    else (defAddress, input0)
  match jsParseInt input with
  | some parsedPort => if parsedPort > 0 then (outAddress, parsedPort) else (outAddress, defPort)
  | none => (outAddress, defPort)

/-- One raw datagram forwarded verbatim by the proxy path. -/
structure RawSend where
  bytes : List ℕ
  port : ℤ
  address : String
deriving DecidableEq, Repr

/-- The `oscSocket.on('data')` handler, parametrised by the config value
`osc.proxy`: when that value is present and truthy (non-empty), forward the
raw bytes to every comma-separated target that parses to a positive port.
No sender information is consulted. -/
def handleData (proxyCfg : Option String) (msg : List ℕ) : List RawSend :=
  match proxyCfg with
  | none => []
  | some proxyPort =>
    if proxyPort = "" then []
    else
      (strSplitOnChar proxyPort ',').foldl (fun acc p =>
        let ap := parsePort (some (strTrim p)) "127.0.0.1" 0
        if ap.2 > 0 then acc ++ [{ bytes := msg, port := ap.2, address := ap.1 }]
        else acc) []

/-- Arrival of one raw datagram on the socket: node `osc` fires `data` with
the raw bytes, and fires `message` only when the bytes parse as an OSC
message (`parsed = some m`).  Returns the state after the semantic path and
the datagrams forwarded by the raw path. -/
def datagramArrival (proxyCfg : Option String) (myAddresses : List String)
    (st : ConnState) (raw : List ℕ) (parsed : Option OscMessage)
    (sender : String) (now : ℕ) : ConnState × List RawSend :=
  let sent := handleData proxyCfg raw
  match parsed with
  | none => (st, sent)
  | some m => (handleMessage myAddresses st m sender now, sent)

/-- The retry-timer invariant: either no retry timer is pending, or exactly
one is pending, it is the one recorded in `retryTimeout`, and its delay is
1000 ms.  (When a pending timer fires it leaves `pendingTimers`, moving the
state back to the first disjunct, with `retryTimeout` still holding the
now-fired handle — which `clearTimeout` then ignores.) -/
def retryTimerInv (st : ConnState) : Prop :=
  st.pendingTimers = [] ∨
  ∃ id, st.retryTimeout = some id ∧ st.pendingTimers = [(id, 1000)]

/-! ## Basic lemmas about the embedded operations -/

theorem receivedUpdate_delta (c : OscValue) (u : Option JSVal) :
    (c.receivedUpdate u).delta = c.delta + numPairDelta c.value u := by
  unfold OscValue.receivedUpdate numPairDelta
  rcases c with ⟨v, d⟩
  rcases v with _ | (q1 | b1 | s1) <;> rcases u with _ | (q2 | b2 | s2) <;> simp

theorem receivedUpdate_value (c : OscValue) (u : Option JSVal) :
    (c.receivedUpdate u).value = u := by
  unfold OscValue.receivedUpdate
  rcases c with ⟨v, d⟩
  cases v <;> cases u <;> simp

theorem applyUpdates_delta (us : List (Option JSVal)) (c : OscValue) :
    (c.applyUpdates us).delta = c.delta + sumAbsDiffs c.value us := by
  induction us generalizing c with
  | nil => simp [OscValue.applyUpdates, sumAbsDiffs]
  | cons u rest ih =>
    show ((c.receivedUpdate u).applyUpdates rest).delta = _
    rw [ih, receivedUpdate_delta, receivedUpdate_value, sumAbsDiffs]
    ring

theorem numPairDelta_eq_zero (a b : Option JSVal)
    (h : isNumV a = false ∨ isNumV b = false) : numPairDelta a b = 0 := by
  rcases a with _ | (qa | ba | sa) <;> rcases b with _ | (qb | bb | sb) <;>
    simp [numPairDelta, isNumV] at h ⊢

theorem lookupEntry_setEntry_self (es : List (String × OscValue)) (key : String)
    (v : OscValue) : lookupEntry (setEntry es key v) key = some v := by
  induction es with
  | nil => simp [setEntry, lookupEntry]
  | cons e rest ih =>
    obtain ⟨k0, w⟩ := e
    by_cases hk : k0 = key
    · subst hk; simp [setEntry, lookupEntry]
    · simp [setEntry, lookupEntry, hk, ih]

theorem lookupEntry_setEntry_ne (es : List (String × OscValue)) (key k : String)
    (v : OscValue) (h : k ≠ key) :
    lookupEntry (setEntry es key v) k = lookupEntry es k := by
  induction es with
  | nil => simp [setEntry, lookupEntry, Ne.symm h]
  | cons e rest ih =>
    obtain ⟨k0, w⟩ := e
    by_cases hk : k0 = key
    · subst hk
      simp [setEntry, lookupEntry, Ne.symm h]
    · by_cases hk2 : k0 = k
      · subst hk2; simp [setEntry, lookupEntry, hk]
      · simp [setEntry, lookupEntry, hk, hk2, ih]

theorem lookupEntry_receivedParamValue_ne (st : ConnState) (p q : String)
    (rv : Option JSVal) (b : Bool) (h : p ≠ q) :
    lookupEntry (receivedParamValue st (some q) rv b).entries p
      = lookupEntry st.entries p := by
  unfold receivedParamValue
  cases rv with
  | none => rfl
  | some v =>
    cases hq : lookupEntry st.entries q with
    | none => simp [hq, lookupEntry_setEntry_ne _ _ _ _ h]
    | some cell => cases b <;> simp [hq, lookupEntry_setEntry_ne _ _ _ _ h]

/-! ## Claim theorems -/

/-- Claim C1: for every cell and every update sequence applied through
`receivedUpdate`, the delta equals the sum of absolute differences between
consecutive values, counting only steps where both sides are numeric,
accumulated since the last `clearDelta`; an update in which either side is
non-numeric leaves the delta untouched; and an update delivered for a
different parameter name leaves the cell unchanged. -/
theorem delta_accumulates_abs_diffs (c : OscValue) (us : List (Option JSVal))
    (st : ConnState) (p q : String) (rv : Option JSVal) (b : Bool)
    (hpq : p ≠ q) :
    ((c.clearDelta).applyUpdates us).delta = sumAbsDiffs c.value us ∧
    (∀ nv, isNumV c.value = false ∨ isNumV nv = false →
      (c.receivedUpdate nv).delta = c.delta) ∧
    lookupEntry (receivedParamValue st (some q) rv b).entries p
      = lookupEntry st.entries p := by
  refine ⟨?_, ?_, lookupEntry_receivedParamValue_ne st p q rv b hpq⟩
  · rw [applyUpdates_delta]
    simp [OscValue.clearDelta]
  · intro nv h
    rw [receivedUpdate_delta, numPairDelta_eq_zero _ _ h, add_zero]

theorem delta_accumulates_abs_diffs_witness :
    ((OscValue.clearDelta { value := some (JSVal.num 1), delta := 5 }).applyUpdates
        [some (JSVal.num 3), none, some (JSVal.num 7)]).delta
      = sumAbsDiffs (some (JSVal.num 1)) [some (JSVal.num 3), none, some (JSVal.num 7)] ∧
    (({ value := some (JSVal.num 1), delta := 5 } : OscValue).receivedUpdate
        (some (JSVal.str "x"))).delta = 5 ∧
    lookupEntry (receivedParamValue initState (some "b") (some (JSVal.num 2)) false).entries "a"
      = lookupEntry initState.entries "a" := by
  have h := delta_accumulates_abs_diffs { value := some (JSVal.num 1), delta := 5 }
    [some (JSVal.num 3), none, some (JSVal.num 7)] initState "a" "b"
    (some (JSVal.num 2)) false (by decide)
  exact ⟨h.1, h.2.1 (some (JSVal.str "x")) (by decide), h.2.2⟩

/-- Claim C2: a bulk-reconciliation merge (`receivedParamValue` with
`onlyUseIfNew = true`) for a name that already has a cell leaves the whole
state unchanged — in particular the cell's value and delta; for a name not
yet present it creates a fresh cell holding the bulk value. -/
theorem bulk_merge_preserves_existing (st : ConnState) (p : String)
    (rv : Option JSVal) :
    (∀ c, lookupEntry st.entries p = some c →
      receivedParamValue st (some p) rv true = st) ∧
    (∀ v : JSVal, lookupEntry st.entries p = none →
      lookupEntry (receivedParamValue st (some p) (some v) true).entries p
        = some (OscValue.receivedUpdate {} (some v))) := by
  constructor
  · intro c hc
    unfold receivedParamValue
    cases rv with
    | none => rfl
    | some v => simp [hc]
  · intro v hn
    simp [receivedParamValue, hn, lookupEntry_setEntry_self]

theorem bulk_merge_preserves_existing_witness :
    receivedParamValue
      { initState with entries := [("foo", { value := some (JSVal.num 1), delta := 0 })] }
      (some "foo") (some (JSVal.num 2)) true
      = { initState with entries := [("foo", { value := some (JSVal.num 1), delta := 0 })] } ∧
    lookupEntry (receivedParamValue initState (some "bar") (some (JSVal.num 2)) true).entries "bar"
      = some (OscValue.receivedUpdate {} (some (JSVal.num 2))) := by
  have h1 := bulk_merge_preserves_existing
    { initState with entries := [("foo", { value := some (JSVal.num 1), delta := 0 })] }
    "foo" (some (JSVal.num 2))
  have h2 := bulk_merge_preserves_existing initState "bar" (some (JSVal.num 2))
  exact ⟨h1.1 { value := some (JSVal.num 1), delta := 0 } (by decide),
         h2.2 (JSVal.num 2) (by decide)⟩

/-- Claim C3: once a bulk attempt's token has been superseded — the current
attempt is no longer `some tok` — the post-fetch half of `_updateBulk`
discards the fetched nodes and leaves the state untouched; `delayRetry`
clears the current attempt, and a newer `updateBulk` mints a token distinct
from every earlier one. -/
theorem stale_bulk_attempt_discarded (st st2 : ConnState) (tok : ℕ)
    (nodes : List BulkNode) (h : st.updateBulkAttempt ≠ some tok) :
    applyBulkResult st tok nodes = st ∧
    (delayRetry st2).updateBulkAttempt = none ∧
    (tok < st2.nextToken → (updateBulkStart st2).updateBulkAttempt ≠ some tok) := by
  refine ⟨?_, rfl, ?_⟩
  · simp [applyBulkResult, h]
  · intro hlt hc
    simp [updateBulkStart] at hc
    omega

theorem stale_bulk_attempt_discarded_witness :
    applyBulkResult initState 0
      [{ full_path := some "/avatar/parameters/Speed",
         arguments := some [{ value := some (JSVal.num 1) }] }] = initState ∧
    (delayRetry initState).updateBulkAttempt = none := by
  have h := stale_bulk_attempt_discarded initState initState 0
    [{ full_path := some "/avatar/parameters/Speed",
       arguments := some [{ value := some (JSVal.num 1) }] }] (by decide)
  exact ⟨h.1, h.2.1⟩

/-- Claim C4 counterexample: with the port/discovery step rejecting,
`openSocket` catches and leaves both the pending-timer list and the retry
handle exactly as they were (empty / unset) — no retry is scheduled — while
`delayRetry`, the only retry-scheduling path, would have produced one. -/
theorem openSocket_failure_no_retry_cex :
    (openSocket initState
      { portResult := Except.error "EADDRINUSE", startResult := Except.error "unused" }).pendingTimers = [] ∧
    (openSocket initState
      { portResult := Except.error "EADDRINUSE", startResult := Except.error "unused" }).retryTimeout = none ∧
    (delayRetry initState).pendingTimers = [(0, 1000)] :=
  ⟨rfl, rfl, rfl⟩

/-- Claim C4, amended: when `openSocketUnsafe` raises (discovery-service
startup or socket opening fails), `openSocket`'s catch block only logs the
error; no retry is scheduled — the pending timers, the retry handle, the
fresh-timer counter and the parameter store are all left unchanged. -/
theorem openSocket_failure_only_logs (st : ConnState) (env : OpenEnv) (e : String)
    (h : (openSocketUnsafe st env).2 = some e) :
    (openSocket st env).pendingTimers = st.pendingTimers ∧
    (openSocket st env).retryTimeout = st.retryTimeout ∧
    (openSocket st env).nextTimerId = st.nextTimerId ∧
    (openSocket st env).entries = st.entries := by
  rcases env with ⟨pr, sr⟩
  rcases pr with pe | pp
  · simp [openSocket, openSocketUnsafe]
  · rcases sr with se | sp <;> simp [openSocket, openSocketUnsafe]

theorem openSocket_failure_only_logs_witness :
    (openSocket initState
      { portResult := Except.error "bind failed", startResult := Except.error "x" }).pendingTimers
      = initState.pendingTimers ∧
    (openSocket initState
      { portResult := Except.error "bind failed", startResult := Except.error "x" }).retryTimeout
      = initState.retryTimeout ∧
    (openSocket initState
      { portResult := Except.error "bind failed", startResult := Except.error "x" }).nextTimerId
      = initState.nextTimerId ∧
    (openSocket initState
      { portResult := Except.error "bind failed", startResult := Except.error "x" }).entries
      = initState.entries :=
  openSocket_failure_only_logs initState
    { portResult := Except.error "bind failed", startResult := Except.error "x" }
    "bind failed" rfl

theorem delayRetry_pendingTimers (st : ConnState) (h : retryTimerInv st) :
    (delayRetry st).pendingTimers = [(st.nextTimerId, 1000)] := by
  rcases h with h | ⟨id, hrt, hpt⟩
  · cases hr : st.retryTimeout <;>
      simp [delayRetry, clearValues, clearTimeoutOpt, h, hr]
  · simp [delayRetry, clearValues, clearTimeoutOpt, hrt, hpt]

theorem retryTimerInv_delayRetry (st : ConnState) (h : retryTimerInv st) :
    retryTimerInv (delayRetry st) :=
  Or.inr ⟨st.nextTimerId, rfl, delayRetry_pendingTimers st h⟩

theorem retryTimerInv_iterate (n : ℕ) : retryTimerInv (delayRetry^[n] initState) := by
  induction n with
  | zero => exact Or.inl rfl
  | succ k ih =>
    rw [Function.iterate_succ_apply']
    exact retryTimerInv_delayRetry _ ih

/-- Claim C5: `delayRetry` cancels any previously scheduled retry timer and
schedules exactly one new retry with a fixed 1000 ms delay, so from the
fresh connection any sequence of `delayRetry` calls leaves exactly one retry
outstanding. -/
theorem delayRetry_single_pending (st : ConnState) (h : retryTimerInv st) :
    (delayRetry st).pendingTimers = [(st.nextTimerId, 1000)] ∧
    (delayRetry st).retryTimeout = some st.nextTimerId ∧
    retryTimerInv (delayRetry st) ∧
    ∀ n : ℕ, (delayRetry^[n + 1] initState).pendingTimers.length = 1 := by
  refine ⟨delayRetry_pendingTimers st h, rfl, retryTimerInv_delayRetry st h, ?_⟩
  intro n
  rw [Function.iterate_succ_apply', delayRetry_pendingTimers _ (retryTimerInv_iterate n)]
  rfl

theorem delayRetry_single_pending_witness :
    (delayRetry initState).pendingTimers = [(0, 1000)] ∧
    (delayRetry initState).retryTimeout = some 0 ∧
    (delayRetry^[3] initState).pendingTimers.length = 1 := by
  have h := delayRetry_single_pending initState (Or.inl rfl)
  exact ⟨h.1, h.2.1, h.2.2.2 2⟩

/-- Claim C6: a parsed message whose sender is not in the trusted-address set
leaves the connection state — store, events, counters, everything — exactly
as it was; the handler is total, so no error is raised. -/
theorem untrusted_sender_no_effect (myAddresses : List String) (st : ConnState)
    (msg : OscMessage) (sender : String) (now : ℕ) (h : sender ∉ myAddresses) :
    handleMessage myAddresses st msg sender now = st := by
  simp [handleMessage, h]

theorem untrusted_sender_no_effect_witness :
    handleMessage ["127.0.0.1"] initState
      { address := "/avatar/parameters/Speed",
        args := some [{ value := some (JSVal.num 1) }] }
      "192.168.1.50" 5 = initState :=
  untrusted_sender_no_effect ["127.0.0.1"] initState
    { address := "/avatar/parameters/Speed",
      args := some [{ value := some (JSVal.num 1) }] }
    "192.168.1.50" 5 (by decide)

/-- Claim C7: `send` is a state-preserving no-op sending nothing when the
socket object is absent, the socket is not open, or discovery knows no peer
address; otherwise it sends exactly one message for
`/avatar/parameters/<name>` carrying a single float argument to the
discovered host and port. -/
theorem send_requires_socket_and_peer (st : ConnState) (name : String)
    (value : ℚ) (sendAddr : Option (String × ℕ)) (host : String) (port : ℕ) :
    (st.oscSocket = false ∨ st.socketopen = false ∨ sendAddr = none →
      send st name value sendAddr = (st, [])) ∧
    (st.oscSocket = true → st.socketopen = true → sendAddr = some (host, port) →
      send st name value sendAddr =
        (st, [{ address := "/avatar/parameters/" ++ name, argType := "f",
                argValue := value, destAddress := host, destPort := port }])) := by
  constructor
  · intro h
    unfold send
    rcases h with h | h | h
    · simp [h]
    · simp [h]
    · subst h
      by_cases hc : st.oscSocket = false ∨ st.socketopen = false
      · simp [hc]
      · simp [hc]
  · intro h1 h2 h3
    simp [send, h1, h2, h3]

theorem send_requires_socket_and_peer_witness :
    send initState "Speed" 1 none = (initState, []) ∧
    send { initState with oscSocket := true, socketopen := true } "Speed" 1
        (some ("127.0.0.1", 9000))
      = ({ initState with oscSocket := true, socketopen := true },
         [{ address := "/avatar/parameters/Speed", argType := "f",
            argValue := 1, destAddress := "127.0.0.1", destPort := 9000 }]) := by
  have h1 := send_requires_socket_and_peer initState "Speed" 1 none "127.0.0.1" 9000
  have h2 := send_requires_socket_and_peer
    { initState with oscSocket := true, socketopen := true } "Speed" 1
    (some ("127.0.0.1", 9000)) "127.0.0.1" 9000
  exact ⟨h1.1 (Or.inr (Or.inr rfl)), h2.2 rfl rfl rfl⟩

/-- Claim C8: on a fresh store, receiving `/avatar/parameters/Speed = 0.5`
then `/avatar/parameters/Speed = 0.8` from a trusted sender leaves the
`Speed` cell with current value `0.8` and delta exactly `0.3` (numbers are
embedded as exact rationals). -/
theorem speed_scenario_delta :
    lookupEntry
      (handleMessage ["127.0.0.1"]
        (handleMessage ["127.0.0.1"] initState
          { address := "/avatar/parameters/Speed",
            args := some [{ value := some (JSVal.num (1/2)) }] }
          "127.0.0.1" 0)
        { address := "/avatar/parameters/Speed",
          args := some [{ value := some (JSVal.num (4/5)) }] }
        "127.0.0.1" 1).entries "Speed"
      = some { value := some (JSVal.num (4/5)), delta := 3/10 } := by
  have h : lookupEntry
      (handleMessage ["127.0.0.1"]
        (handleMessage ["127.0.0.1"] initState
          { address := "/avatar/parameters/Speed",
            args := some [{ value := some (JSVal.num (1/2)) }] }
          "127.0.0.1" 0)
        { address := "/avatar/parameters/Speed",
          args := some [{ value := some (JSVal.num (4/5)) }] }
        "127.0.0.1" 1).entries "Speed"
      = some (OscValue.receivedUpdate
          { value := some (JSVal.num (1/2)), delta := 0 } (some (JSVal.num (4/5)))) := rfl
  rw [h]
  unfold OscValue.receivedUpdate
  simp
  rw [show (4/5 : ℚ) - 2⁻¹ = 3/10 by norm_num]
  rw [abs_of_nonneg (by norm_num : (0 : ℚ) ≤ 3/10)]

/-- Claim C9: a trusted-sender message addressed `/avatar/change` empties the
store, appends exactly one `clear` event, and starts a new bulk attempt whose
token differs from the previously current one (given that every minted token
is below the fresh-token counter); the early `return` means no parameter
update is processed, which is witnessed by the store being empty and the
event trace gaining only `clear`. -/
theorem avatar_change_clears_and_restarts (myAddresses : List String)
    (st : ConnState) (msg : OscMessage) (sender : String) (now : ℕ)
    (h1 : sender ∈ myAddresses) (h2 : msg.address = "/avatar/change")
    (hinv : ∀ t, st.updateBulkAttempt = some t → t < st.nextToken) :
    (handleMessage myAddresses st msg sender now).entries = [] ∧
    (handleMessage myAddresses st msg sender now).events
      = st.events ++ [OscEvent.clear] ∧
    (handleMessage myAddresses st msg sender now).waitingForBulk = true ∧
    ∃ t, (handleMessage myAddresses st msg sender now).updateBulkAttempt = some t ∧
      st.updateBulkAttempt ≠ some t := by
  unfold handleMessage
  rw [if_pos h1]
  cases hr : st.receivedOne with
  | false =>
    simp only [hr, h2, updateBulkStart, clearValues]
    refine ⟨by simp, by simp, by simp, st.nextToken + 1, by simp, ?_⟩
    intro hc
    have := hinv _ hc
    omega
  | true =>
    simp only [hr, h2, updateBulkStart, clearValues]
    refine ⟨by simp, by simp, by simp, st.nextToken, by simp, ?_⟩
    intro hc
    have := hinv _ hc
    omega

theorem avatar_change_clears_and_restarts_witness :
    (handleMessage ["127.0.0.1"] initState
        { address := "/avatar/change", args := none } "127.0.0.1" 7).entries = [] ∧
    (handleMessage ["127.0.0.1"] initState
        { address := "/avatar/change", args := none } "127.0.0.1" 7).events
      = initState.events ++ [OscEvent.clear] ∧
    (handleMessage ["127.0.0.1"] initState
        { address := "/avatar/change", args := none } "127.0.0.1" 7).waitingForBulk = true := by
  have h := avatar_change_clears_and_restarts ["127.0.0.1"] initState
    { address := "/avatar/change", args := none } "127.0.0.1" 7
    (by decide) rfl (by intro t ht; exact Option.noConfusion ht)
  exact ⟨h.1, h.2.1, h.2.2.1⟩

/-- Claim C10: the raw-forward path forwards the unparsed bytes to the
configured proxy targets independently of the sender, of the trusted-address
set, and of whether the datagram parses as an OSC message, while the
semantic path (under the same arrival) drops everything from an untrusted
sender. -/
theorem raw_forward_ignores_sender (proxyCfg : Option String)
    (t1 t2 : List String) (st : ConnState) (raw : List ℕ)
    (p1 p2 : Option OscMessage) (s1 s2 : String) (n1 n2 : ℕ)
    (h : s1 ∉ t1) :
    (datagramArrival proxyCfg t1 st raw p1 s1 n1).2
      = (datagramArrival proxyCfg t2 st raw p2 s2 n2).2 ∧
    (datagramArrival proxyCfg t1 st raw p1 s1 n1).2 = handleData proxyCfg raw ∧
    (datagramArrival proxyCfg t1 st raw p1 s1 n1).1 = st := by
  refine ⟨?_, ?_, ?_⟩
  · cases p1 <;> cases p2 <;> rfl
  · cases p1 <;> rfl
  · cases p1 with
    | none => rfl
    | some m => simp [datagramArrival, handleMessage, h]

theorem raw_forward_ignores_sender_witness :
    (datagramArrival (some "9001") ["127.0.0.1"] initState [7, 8]
        (some { address := "/avatar/parameters/Speed",
                args := some [{ value := some (JSVal.num 1) }] })
        "192.168.1.50" 0).2
      = (datagramArrival (some "9001") [] initState [7, 8] none "10.0.0.9" 3).2 ∧
    (datagramArrival (some "9001") ["127.0.0.1"] initState [7, 8]
        (some { address := "/avatar/parameters/Speed",
                args := some [{ value := some (JSVal.num 1) }] })
        "192.168.1.50" 0).2
      = handleData (some "9001") [7, 8] ∧
    (datagramArrival (some "9001") ["127.0.0.1"] initState [7, 8]
        (some { address := "/avatar/parameters/Speed",
                args := some [{ value := some (JSVal.num 1) }] })
        "192.168.1.50" 0).1 = initState ∧
    handleData (some "9001") [7, 8] = [{ bytes := [7, 8], port := 9001, address := "127.0.0.1" }] := by
  have h := raw_forward_ignores_sender (some "9001") ["127.0.0.1"] [] initState [7, 8]
    (some { address := "/avatar/parameters/Speed",
            args := some [{ value := some (JSVal.num 1) }] })
    none "192.168.1.50" "10.0.0.9" 0 3 (by decide)
  exact ⟨h.1, h.2.1, h.2.2, by decide⟩
